import Mathlib

/-
Verification of the RAG web application core against its specification.

The Python sources are shallowly embedded: Python strings become `List Char`,
pure functions become Lean functions, the external collaborators (Qdrant
client, SentenceTransformer, LLM providers, SQLAlchemy session) become
explicit oracle parameters (`Except`-valued) or explicit state, and Python
`try/except` blocks become pattern matches on those oracles.
-/

namespace RAG

/-- Python strings are modelled as lists of characters. -/
abbrev Str := List Char

/-- Conversion from a Lean string literal to the model type. -/
def str (s : String) : Str := s.data

/-! ## Chunking service (src/app/services/chunking.py) -/

/-- The characters removed by Python `str.strip()` (ASCII whitespace). -/
def pyIsSpace (c : Char) : Bool :=
  c = ' ' || c = '\t' || c = '\n' || c = '\r' || c = '\x0b' || c = '\x0c'

/-- Python `s.strip()`: drop whitespace from both ends. -/
def pyStrip (s : Str) : Str :=
  ((s.dropWhile pyIsSpace).reverse.dropWhile pyIsSpace).reverse

/-- Python `s.split('\n\n')`: split on each non-overlapping occurrence of the
blank-line separator, scanning left to right. -/
def splitBlank : Str → Str → List Str
  | [], acc => [acc.reverse]
  | '\n' :: '\n' :: rest, acc => acc.reverse :: splitBlank rest []
  | c :: rest, acc => splitBlank rest (c :: acc)

/-- The paragraph separator `"\n\n"` used by `hierarchical_chunking`. -/
def sep : Str := ['\n', '\n']

/-- `[p.strip() for p in document_text.split('\n\n') if p.strip()]`
(chunking.py line 125). -/
def parseParagraphs (text : Str) : List Str :=
  ((splitBlank text []).map pyStrip).filter (fun p => !p.isEmpty)

/-- Python slice `s[-k:]`.  For `k = 0` the index `-0` is just `0`, so the
slice is the whole string; otherwise it is the last `k` characters (all of
`s` when `k > len(s)`). -/
def pySliceLast (s : Str) (k : Nat) : Str :=
  if k = 0 then s else s.drop (s.length - k)

/-- `current_chunk[-chunk_overlap:] if len(current_chunk) > chunk_overlap
else current_chunk` (chunking.py line 144). -/
def overlapText (current : Str) (ov : Nat) : Str :=
  if current.length > ov then pySliceLast current ov else current

/-- One chunk dictionary as built in chunking.py lines 134-140 and 156-162. -/
structure ChunkRec where
  content : Str
  chunk_index : Nat
  start_para : Int
  end_para : Nat
  char_count : Nat
deriving DecidableEq, Inhabited

/-- The chunk dictionary built when a chunk is closed at paragraph index
`paraIdx` (or at the end of the loop, where `paraIdx = len(paragraphs)`):
both sites of chunking.py use the same field expressions. -/
def mkClosed (current : Str) (ci paraIdx : Nat) : ChunkRec :=
  { content := pyStrip current
    chunk_index := ci
    start_para := (paraIdx : Int) - ((splitBlank current []).length : Int)
    end_para := paraIdx
    char_count := current.length }

/-- The `for para_idx, paragraph in enumerate(paragraphs)` loop of
`hierarchical_chunking` (chunking.py lines 130-162), with the loop state
(`chunks`, `current_chunk`, `chunk_index`) passed explicitly.  `cs` is
`chunk_size` (a Python int, so `Int`), `ov` is `chunk_overlap`. -/
def chunkLoop (cs : Int) (ov : Nat) :
    List Str → Nat → List ChunkRec → Str → Nat → List ChunkRec
  | [], paraIdx, chunks, current, ci =>
    if (pyStrip current).isEmpty then chunks
    else chunks ++ [mkClosed current ci paraIdx]
  | p :: rest, paraIdx, chunks, current, ci =>
    if ((current.length : Int) + (p.length : Int) > cs) ∧ current ≠ [] then
      chunkLoop cs ov rest (paraIdx + 1) (chunks ++ [mkClosed current ci paraIdx])
        (overlapText current ov ++ sep ++ p) (ci + 1)
    else if current = [] then
      chunkLoop cs ov rest (paraIdx + 1) chunks p ci
    else
      chunkLoop cs ov rest (paraIdx + 1) chunks (current ++ sep ++ p) ci

/-- `hierarchical_chunking(document_text, chunk_size, chunk_overlap)`
(chunking.py lines 100-165) with explicit size arguments (the `None`
defaults merely substitute the settings values). -/
def hierarchical_chunking (text : Str) (cs : Int) (ov : Nat) : List ChunkRec :=
  chunkLoop cs ov (parseParagraphs text) 0 [] [] 0

/-- Outcomes the specification assigns to the chunker. -/
inductive ChunkerOutcome
  | invalidInput
deriving DecidableEq

/-- The run result of `hierarchical_chunking` as a Python call: the function
body contains no `raise` and applies only total operations (`split`, `strip`,
`len`, `+`, slicing) to its string argument, so on any string input it
returns normally with the chunk list. -/
def hierarchical_chunkingRun (text : Str) (cs : Int) (ov : Nat) :
    Except ChunkerOutcome (List ChunkRec) :=
  Except.ok (hierarchical_chunking text cs ov)

/-- The seeding rule exactly as the specification words it: the last
`overlap` characters of the closed chunk's content (or the whole closed
content if it is shorter than `overlap`), followed by the paragraph that
triggered the close, joined by one paragraph separator. -/
def specSeed (content : Str) (ov : Nat) (p : Str) : Str :=
  (if content.length < ov then content else content.drop (content.length - ov)) ++ sep ++ p

/-- The length of the longest parsed paragraph. -/
def maxLen (ps : List Str) : Nat := ps.foldr (fun p m => max p.length m) 0

/-! ## Lemmas about the chunker -/

lemma dropWhile_length_le (p : Char → Bool) (l : List Char) :
    (l.dropWhile p).length ≤ l.length := by
  induction l with
  | nil => simp [List.dropWhile]
  | cons c rest ih =>
    rw [List.dropWhile]
    cases p c
    · simp
    · simpa using Nat.le_succ_of_le ih

lemma pyStrip_length (s : Str) : (pyStrip s).length ≤ s.length := by
  unfold pyStrip
  rw [List.length_reverse]
  calc ((s.dropWhile pyIsSpace).reverse.dropWhile pyIsSpace).length
      ≤ (s.dropWhile pyIsSpace).reverse.length := dropWhile_length_le _ _
    _ = (s.dropWhile pyIsSpace).length := List.length_reverse _
    _ ≤ s.length := dropWhile_length_le _ _

lemma overlapText_length (s : Str) (ov : Nat) (hov : 1 ≤ ov) :
    (overlapText s ov).length ≤ ov := by
  unfold overlapText pySliceLast
  split
  · split
    · omega
    · rename_i hgt _
      rw [List.length_drop]
      omega
  · omega

lemma le_maxLen (ps : List Str) (p : Str) (hp : p ∈ ps) : p.length ≤ maxLen ps := by
  induction ps with
  | nil => cases hp
  | cons q rest ih =>
    rcases List.mem_cons.mp hp with h | h
    · subst h
      exact le_max_left _ _
    · exact le_trans (ih h) (le_max_right _ _)

lemma chunkLoop_content_le (cs : Int) (ov : Nat) (hov : 1 ≤ ov) (L : Nat) :
    ∀ (ps : List Str), (∀ p ∈ ps, p.length ≤ L) →
    ∀ (paraIdx ci : Nat) (chunks : List ChunkRec) (current : Str),
    (∀ c ∈ chunks, (c.content.length : Int) ≤ max (cs + 2) ((ov : Int) + 2 + (L : Int))) →
    ((current.length : Int) ≤ max (cs + 2) ((ov : Int) + 2 + (L : Int))) →
    ∀ c ∈ chunkLoop cs ov ps paraIdx chunks current ci,
      (c.content.length : Int) ≤ max (cs + 2) ((ov : Int) + 2 + (L : Int)) := by
  intro ps
  induction ps with
  | nil =>
    intro _ paraIdx ci chunks current hchunks hcur c hc
    rw [chunkLoop] at hc
    split at hc
    · exact hchunks c hc
    · rcases List.mem_append.mp hc with h | h
      · exact hchunks c h
      · rcases List.mem_singleton.mp h with rfl
        have h1 : (pyStrip current).length ≤ current.length := pyStrip_length current
        simp only [mkClosed]
        exact le_trans (by exact_mod_cast h1) hcur
  | cons p rest ih =>
    intro hps paraIdx ci chunks current hchunks hcur c hc
    have hpL : p.length ≤ L := hps p (List.mem_cons_self p rest)
    have hrest : ∀ q ∈ rest, q.length ≤ L := fun q hq => hps q (List.mem_cons_of_mem _ hq)
    rw [chunkLoop] at hc
    split at hc
    · rename_i hclose
      refine ih hrest (paraIdx + 1) (ci + 1) _ _ ?_ ?_ c hc
      · intro d hd
        rcases List.mem_append.mp hd with h | h
        · exact hchunks d h
        · rcases List.mem_singleton.mp h with rfl
          have h1 : (pyStrip current).length ≤ current.length := pyStrip_length current
          simp only [mkClosed]
          exact le_trans (by exact_mod_cast h1) hcur
      · have h1 : (overlapText current ov).length ≤ ov := overlapText_length current ov hov
        have h2 : (overlapText current ov ++ sep ++ p).length
            = (overlapText current ov).length + 2 + p.length := by
          simp [sep]
          omega
        rw [h2]
        refine le_trans ?_ (le_max_right _ _)
        push_cast
        omega
    · rename_i hclose
      split at hc
      · rename_i hemp
        refine ih hrest (paraIdx + 1) ci chunks p hchunks ?_ c hc
        refine le_trans ?_ (le_max_right _ _)
        omega
      · rename_i hemp
        have hle : (current.length : Int) + (p.length : Int) ≤ cs := by
          by_contra hgt
          exact hclose ⟨by omega, hemp⟩
        refine ih hrest (paraIdx + 1) ci chunks (current ++ sep ++ p) hchunks ?_ c hc
        have h2 : (current ++ sep ++ p).length = current.length + 2 + p.length := by
          simp [sep]
          omega
        rw [h2]
        refine le_trans ?_ (le_max_left _ _)
        push_cast
        omega

/-- C3 (amended): for `overlap ≥ 1`, every chunk's content length is bounded
by `max (target_size + 2) (overlap + 2 + L)`, `L` the longest paragraph
length and `2` the length of the paragraph separator. -/
theorem chunk_size_bound (text : Str) (cs : Int) (ov : Nat) (hov : 1 ≤ ov) :
    ∀ c ∈ hierarchical_chunking text cs ov,
      (c.content.length : Int) ≤
        max (cs + 2) ((ov : Int) + 2 + (maxLen (parseParagraphs text) : Int)) := by
  intro c hc
  refine chunkLoop_content_le cs ov hov (maxLen (parseParagraphs text))
    (parseParagraphs text) (fun p hp => le_maxLen _ p hp)
    0 0 [] [] (by simp) ?_ c hc
  refine le_trans ?_ (le_max_right _ _)
  simp only [List.length_nil, Nat.cast_zero]
  positivity

/-- C3 witness: the size bound instantiated at the two-paragraph document
used throughout, with `target_size = 10` and `overlap = 5`. -/
theorem chunk_size_bound_witness :
    1 ≤ 5 ∧
    (((hierarchical_chunking (str "aaaaaaaa\n\nbbbbbb") 10 5).getD 1 default).content.length : Int) ≤
      max ((10 : Int) + 2)
        ((5 : Int) + 2 + (maxLen (parseParagraphs (str "aaaaaaaa\n\nbbbbbb")) : Int)) :=
  ⟨by omega,
   chunk_size_bound (str "aaaaaaaa\n\nbbbbbb") 10 5 (by omega)
     ((hierarchical_chunking (str "aaaaaaaa\n\nbbbbbb") 10 5).getD 1 default)
     (by decide)⟩

/-- C3 counterexample: with `target_size = 10`, `overlap = 5`, the document
`"aaaaaaaa\n\nbbbbbb"` has paragraphs of lengths 8 and 6 (both within the
target), yet the overlap-seeded second chunk has content of length 13 > 10 —
a chunk that is not a single paragraph exceeding the target on its own. -/
theorem chunk_size_claim_counterexample :
    (hierarchical_chunking (str "aaaaaaaa\n\nbbbbbb") 10 5).map ChunkRec.content
      = [str "aaaaaaaa", str "aaaaa\n\nbbbbbb"] ∧
    (str "aaaaa\n\nbbbbbb").length = 13 ∧
    parseParagraphs (str "aaaaaaaa\n\nbbbbbb") = [str "aaaaaaaa", str "bbbbbb"] ∧
    (str "aaaaaaaa").length = 8 ∧
    (str "bbbbbb").length = 6 := by
  decide

/-! ## Claim C7: chunker input validation -/

lemma dropWhile_head_false (p : Char → Bool) :
    ∀ (l : Str) (c : Char) (rest : Str), l.dropWhile p = c :: rest → p c = false := by
  intro l
  induction l with
  | nil =>
    intro c rest h
    simp [List.dropWhile] at h
  | cons a l ih =>
    intro c rest h
    rw [List.dropWhile] at h
    cases hpa : p a
    · rw [hpa] at h
      injection h with h1 _
      rw [← h1]
      exact hpa
    · rw [hpa] at h
      exact ih c rest h

lemma pyStrip_ne_nil_nonspace (s : Str) (h : pyStrip s ≠ []) :
    ∃ c ∈ pyStrip s, pyIsSpace c = false := by
  unfold pyStrip at *
  cases hc : (s.dropWhile pyIsSpace).reverse.dropWhile pyIsSpace with
  | nil =>
    rw [hc] at h
    simp at h
  | cons c rest =>
    refine ⟨c, ?_, dropWhile_head_false pyIsSpace _ c rest hc⟩
    simp

lemma pyStrip_ne_nil_of_mem (s : Str) (c : Char) (hc : c ∈ s)
    (hcf : pyIsSpace c = false) : pyStrip s ≠ [] := by
  intro h
  unfold pyStrip at h
  have h1 : (s.dropWhile pyIsSpace).reverse.dropWhile pyIsSpace = [] := by
    simpa using congrArg List.reverse h
  have h2 := List.dropWhile_eq_nil_iff.mp h1
  have h3 : ∀ x ∈ s, pyIsSpace x := by
    intro x hx
    rw [← List.takeWhile_append_dropWhile (p := pyIsSpace) (l := s)] at hx
    rcases List.mem_append.mp hx with hx | hx
    · exact List.mem_takeWhile_imp hx
    · exact h2 x (List.mem_reverse.mpr hx)
  rw [h3 c hc] at hcf
  simp at hcf

lemma chunkLoop_count (cs : Int) (hcs : cs ≤ 0) (ov : Nat) :
    ∀ (ps : List Str), (∀ p ∈ ps, ∃ c ∈ p, pyIsSpace c = false) →
    ∀ (paraIdx ci : Nat) (chunks : List ChunkRec) (current : Str),
    (∃ c ∈ current, pyIsSpace c = false) →
    (chunkLoop cs ov ps paraIdx chunks current ci).length
      = chunks.length + ps.length + 1 := by
  intro ps
  induction ps with
  | nil =>
    intro _ paraIdx ci chunks current hcur
    obtain ⟨c, hc, hcf⟩ := hcur
    have hne : pyStrip current ≠ [] := pyStrip_ne_nil_of_mem current c hc hcf
    rw [chunkLoop, if_neg (by simpa [List.isEmpty_iff] using hne)]
    simp
  | cons p rest ih =>
    intro hps paraIdx ci chunks current hcur
    obtain ⟨c, hc, hcf⟩ := hcur
    obtain ⟨cp, hcp, hcpf⟩ := hps p (List.mem_cons_self p rest)
    have hcur_ne : current ≠ [] := by
      intro h
      rw [h] at hc
      exact List.not_mem_nil c hc
    have hp_ne : p ≠ [] := by
      intro h
      rw [h] at hcp
      exact List.not_mem_nil cp hcp
    have hcond : ((current.length : Int) + (p.length : Int) > cs) ∧ current ≠ [] := by
      refine ⟨?_, hcur_ne⟩
      have h1 : 0 < current.length := List.length_pos.mpr hcur_ne
      have h2 : 0 < p.length := List.length_pos.mpr hp_ne
      omega
    rw [chunkLoop, if_pos hcond]
    rw [ih (fun q hq => hps q (List.mem_cons_of_mem _ hq)) (paraIdx + 1) (ci + 1)
        (chunks ++ [mkClosed current ci paraIdx]) (overlapText current ov ++ sep ++ p)
        ⟨cp, by simp [hcp], hcpf⟩]
    simp
    omega

/-- C7 (amended): `hierarchical_chunking` performs no input validation.  On
any string and any `target_size ≤ 0` it returns normally (never an
`InvalidInput` failure) and emits exactly one chunk per parsed paragraph,
because every paragraph after the first closes the pending chunk. -/
theorem chunker_no_validation (text : Str) (cs : Int) (ov : Nat) (hcs : cs ≤ 0) :
    hierarchical_chunkingRun text cs ov = Except.ok (hierarchical_chunking text cs ov) ∧
    (hierarchical_chunking text cs ov).length = (parseParagraphs text).length := by
  refine ⟨rfl, ?_⟩
  unfold hierarchical_chunking
  have hps : ∀ p ∈ parseParagraphs text, ∃ c ∈ p, pyIsSpace c = false := by
    intro p hp
    unfold parseParagraphs at hp
    rw [List.mem_filter] at hp
    obtain ⟨hp1, hp2⟩ := hp
    rw [List.mem_map] at hp1
    obtain ⟨r, _, hr⟩ := hp1
    rw [← hr]
    apply pyStrip_ne_nil_nonspace
    intro hnil
    rw [← hr, hnil] at hp2
    simp at hp2
  cases hpp : parseParagraphs text with
  | nil => simp [chunkLoop, pyStrip, List.dropWhile]
  | cons p rest =>
    have hstep : chunkLoop cs ov (p :: rest) 0 [] [] 0 = chunkLoop cs ov rest 1 [] p 0 := by
      rw [chunkLoop, if_neg (by simp), if_pos rfl]
    rw [hstep, chunkLoop_count cs hcs ov rest
        (fun q hq => hps q (hpp ▸ List.mem_cons_of_mem _ hq)) 1 0 [] p
        (hps p (hpp ▸ List.mem_cons_self p rest))]
    simp

/-- C7 witness: the amended statement instantiated at `target_size = 0`. -/
theorem chunker_no_validation_witness :
    (0 : Int) ≤ 0 ∧
    (hierarchical_chunkingRun (str "a\n\nb") 0 0
        = Except.ok (hierarchical_chunking (str "a\n\nb") 0 0) ∧
      (hierarchical_chunking (str "a\n\nb") 0 0).length
        = (parseParagraphs (str "a\n\nb")).length) :=
  ⟨le_refl 0, chunker_no_validation (str "a\n\nb") 0 0 (le_refl 0)⟩

/-- C7 counterexample: called with `target_size = 0` the chunker does not
fail with `InvalidInput` — it returns normally and produces chunks. -/
theorem chunker_validation_counterexample :
    hierarchical_chunking (str "a\n\nb") 0 0 =
      [⟨str "a", 0, 0, 1, 1⟩, ⟨str "a\n\nb", 1, 0, 2, 4⟩] ∧
    hierarchical_chunkingRun (str "a\n\nb") 0 0 ≠ Except.error ChunkerOutcome.invalidInput := by
  refine ⟨by decide, fun h => Except.noConfusion h⟩

/-- C8: at `overlap = 0` the code seeds the next buffer with the whole
closed chunk (`current_chunk[-0:]` is the entire string in Python), not with
the last 0 characters as the specified seeding rule demands: on
`"aa\n\nbb"` with `target_size = 3`, `overlap = 0` the second emitted chunk
is `"aa\n\nbb"`, while the specified rule would seed a buffer stripping to
`"bb"`. -/
theorem overlap_seed_bug :
    (hierarchical_chunking (str "aa\n\nbb") 3 0).map ChunkRec.content
      = [str "aa", str "aa\n\nbb"] ∧
    pyStrip (specSeed (str "aa") 0 (str "bb")) = str "bb" ∧
    str "aa\n\nbb" ≠ str "bb" ∧
    overlapText (str "aa") 0 = str "aa" ∧
    specSeed (str "aa") 0 (str "bb") ≠ overlapText (str "aa") 0 ++ sep ++ str "bb" := by
  decide

/-! ## Vector database (src/app/services/vector_db.py) -/

/-- A point stored in the Qdrant collection.  `upsert_chunks` writes the
payload keys `document_id` and `project_id` (documents.py lines 166-171);
only those two are consulted by filters. -/
structure VPoint where
  id : Str
  document_id : Str
  project_id : Str
deriving DecidableEq

/-- `VectorDatabase.delete_by_document` (vector_db.py lines 296-325): remove
every point whose payload `document_id` matches. -/
def delete_by_document (index : List VPoint) (docId : Str) : List VPoint :=
  index.filter (fun p => !(p.document_id == docId))

/-- `VectorDatabase.connect` (vector_db.py lines 29-70), reduced to its
dimension logic.  The embedding-model load is an oracle: `Except.error`
models the `except` path (connect returns `False`), `Except.ok actual`
yields the model's discovered dimension.  On a mismatch the code logs a
warning and assigns `self.embedding_dimension = actual_dimension`, then
returns `True`.  Result: (return value, resulting `embedding_dimension`). -/
def connect (configuredDim : Nat) (modelLoad : Except Unit Nat) : Bool × Nat :=
  match modelLoad with
  | Except.error _ => (false, configuredDim)
  | Except.ok actualDim =>
    if actualDim ≠ configuredDim then (true, actualDim) else (true, configuredDim)

/-- One Qdrant collection (name and vector-parameter size). -/
structure Collection where
  name : Str
  dim : Nat
deriving DecidableEq

/-- `VectorDatabase.create_collection` (vector_db.py lines 72-109): list the
collection names, optionally delete and forget an existing collection when
`recreate` is set, create the collection only when its name is absent, and
return `True`.  Only names are compared — the dimension of an existing
collection is never inspected. -/
def create_collection (cols : List Collection) (nm : Str) (dim : Nat)
    (recreate : Bool) : Bool × List Collection :=
  let names := cols.map (fun c => c.name)
  let cleaned :=
    if recreate && names.contains nm
    then (cols.filter (fun c => !(c.name == nm)), names.erase nm)
    else (cols, names)
  if !(cleaned.2.contains nm) then (true, cleaned.1 ++ [⟨nm, dim⟩])
  else (true, cleaned.1)

/-- One formatted search result of `VectorDatabase.search` (vector_db.py
lines 251-263), restricted to the fields the query route reads.  Scores are
carried through untouched by the Python code, so they are modelled as
rationals. -/
structure Hit where
  chunk_id : Str
  score : ℚ
  document_id : Str
  page_number : Option Int
deriving DecidableEq

/-- `VectorDatabase.search` (vector_db.py lines 194-270), with the Qdrant
client call as an oracle: the `try` body's result if it returns, or
`Except.error` if it raises.  The `except` clause catches everything and
returns the empty list. -/
def vdbSearch (raw : Except Unit (List Hit)) : List Hit :=
  match raw with
  | Except.ok hits => hits
  | Except.error _ => []

/-- Python truthiness of an optional string: `None` and `""` are falsy. -/
def pyTruthyStr : Option Str → Bool
  | none => false
  | some s => !s.isEmpty

/-- The filter conditions built by `VectorDatabase.search` (vector_db.py
lines 219-240): a `project_id` / `document_id` equality condition is
appended only when the corresponding argument is truthy. -/
def buildConditions (projectId documentId : Option Str) : List (Str × Str) :=
  (if pyTruthyStr projectId then [(str "project_id", projectId.getD [])] else []) ++
  (if pyTruthyStr documentId then [(str "document_id", documentId.getD [])] else [])

/-- Payload lookup for the keys the filters use. -/
def payloadGet (p : VPoint) (k : Str) : Option Str :=
  if k == str "project_id" then some p.project_id
  else if k == str "document_id" then some p.document_id
  else none

/-- Semantics of the Qdrant `Filter(must=conditions)` the code sends: a
point matches when every condition's payload key equals its value; an empty
condition list (the code passes `query_filter=None`) matches every point
(spec section 4.3: the filter is a conjunction). -/
def matchesConditions (conds : List (Str × Str)) (p : VPoint) : Bool :=
  conds.all (fun kv => payloadGet p kv.1 == some kv.2)

/-- The scope restriction `VectorDatabase.search` imposes on the index: the
subset of points the Qdrant call ranks, per the conditions built from the
two optional ids. -/
def searchScope (index : List VPoint) (projectId documentId : Option Str) :
    List VPoint :=
  index.filter (matchesConditions (buildConditions projectId documentId))

/-! ## Query route (src/app/api/routes/queries.py) -/

/-- Query status enum (models/query.py lines 12-17). -/
inductive QueryStatus
  | pending
  | processing
  | completed
  | failed
deriving DecidableEq

/-- A chunk row of the relational store, as read by the query route. -/
structure ChunkRow where
  id : Str
  content : Str
deriving DecidableEq

/-- A document row of the relational store, as read by the query route. -/
structure DocumentRow where
  id : Str
  project_id : Str
  filename : Str
deriving DecidableEq

/-- The slice of the relational database the query route consults. -/
structure Db where
  projects : List Str
  chunks : List ChunkRow
  documents : List DocumentRow
deriving DecidableEq

/-- A Python value stored in one of the route's dictionaries. -/
inductive PyVal
  | s (v : Str)
  | i (v : Int)
  | q (v : ℚ)
  | none
deriving DecidableEq

/-- A Python dictionary with string keys, as an association list in
insertion order. -/
abbrev PyDict := List (Str × PyVal)

/-- `chunks_dict.get(result["chunk_id"])` (queries.py lines 86-87, 99). -/
def lookupChunk (db : Db) (cid : Str) : Option ChunkRow :=
  db.chunks.find? (fun c => c.id == cid)

/-- `docs_dict.get(result["document_id"])` (queries.py lines 90-92, 100). -/
def lookupDoc (db : Db) (did : Str) : Option DocumentRow :=
  db.documents.find? (fun d => d.id == did)

/-- One context entry appended in queries.py lines 103-107. -/
def contextEntry (chunk : ChunkRow) (res : Hit) (rank : Nat) : PyDict :=
  [ (str "text", PyVal.s chunk.content)
  , (str "score", PyVal.q res.score)
  , (str "rank", PyVal.i rank) ]

/-- One citation dictionary appended in queries.py lines 109-116.  Note the
key set: there is no `rank` entry. -/
def citationDict (chunk : ChunkRow) (document : DocumentRow) (res : Hit) : PyDict :=
  [ (str "chunk_id", PyVal.s chunk.id)
  , (str "document_id", PyVal.s document.id)
  , (str "document_name", PyVal.s document.filename)
  , (str "page_number", match res.page_number with
      | some n => PyVal.i n
      | Option.none => PyVal.none)
  , (str "similarity_score", PyVal.q res.score)
  , (str "text", PyVal.s (if chunk.content.length > 200
      then chunk.content.take 200 ++ str "..." else chunk.content)) ]

/-- The `for i, result in enumerate(search_results)` loop of queries.py
lines 98-116: entries are appended only when both the chunk and the document
resolve; the context rank is the enumerate index + 1. -/
def buildCC (db : Db) : List (Nat × Hit) → List PyDict × List PyDict
  | [] => ([], [])
  | (i, res) :: rest =>
    let tail := buildCC db rest
    match lookupChunk db res.chunk_id, lookupDoc db res.document_id with
    | some chunk, some document =>
      (contextEntry chunk res (i + 1) :: tail.1,
       citationDict chunk document res :: tail.2)
    | _, _ => tail

/-- The fields of `QueryRequest` the route accesses. -/
structure QueryRequest where
  project_id : Str
  query_text : Str
  model : Option Str
deriving DecidableEq

/-- Python `x or default` for an optional string (`None` and `""` fall back). -/
def pyOrStr (o : Option Str) (d : Str) : Str :=
  match o with
  | some s => if s.isEmpty then d else s
  | none => d

/-- The fallback answer of queries.py line 81. -/
def noResultsMsg : Str :=
  str "I couldn\x27t find any relevant information in your documents to answer this question."

/-- The degraded answer of queries.py line 129: retrieval succeeded but
generation failed (the formatted exception text is appended). -/
def degradedMsg (e : Str) : Str :=
  str "Found relevant information but encountered an error generating the response: " ++ e

/-- `generate_rag_response` (llm.py lines 118-141): empty context returns a
fixed message without calling any provider; otherwise the provider oracle
decides (its `Except.error` models the provider call raising). -/
def generateRagResponse (contextChunks : List PyDict) (provider : Except Str Str) :
    Except Str Str :=
  if contextChunks.isEmpty
  then Except.ok (str "I couldn\x27t find any relevant information in the documents to answer your question.")
  else provider

/-- The query row the route commits (queries.py lines 134-142). -/
structure QueryRecord where
  id : Str
  project_id : Str
  query_text : Str
  response_text : Str
  model_used : Str
  citations : List PyDict
  status : QueryStatus
deriving DecidableEq

/-- HTTP error outcomes of the route. -/
inductive HttpErr
  | notFound
  | internal
deriving DecidableEq

/-- `submit_query` (queries.py lines 51-163).  `qid` stands for the
generated uuid, `searchRaw` for the outcome of the Qdrant client call inside
`vector_db.search`, and `provider` for the outcome of the LLM provider call
inside `generate_rag_response`; the `try/except` around that call converts a
provider failure into the degraded answer.  The committed row always
carries `QueryStatus.COMPLETED`. -/
def submitQuery (db : Db) (req : QueryRequest) (qid : Str)
    (searchRaw : Except Unit (List Hit)) (provider : Except Str Str) :
    Except HttpErr QueryRecord :=
  if db.projects.contains req.project_id then
    let searchResults := vdbSearch searchRaw
    if searchResults.isEmpty then
      Except.ok
        { id := qid
          project_id := req.project_id
          query_text := req.query_text
          response_text := noResultsMsg
          model_used := pyOrStr req.model (str "gpt-4")
          citations := []
          status := QueryStatus.completed }
    else
      let cc := buildCC db searchResults.enum
      let responseText :=
        match generateRagResponse cc.1 provider with
        | Except.ok t => t
        | Except.error e => degradedMsg e
      Except.ok
        { id := qid
          project_id := req.project_id
          query_text := req.query_text
          response_text := responseText
          model_used := pyOrStr req.model (str "gpt-4")
          citations := cc.2
          status := QueryStatus.completed }
  else Except.error HttpErr.notFound

/-! ## Document delete route (src/app/api/routes/documents.py) -/

/-- The state the delete route touches: the relational document rows and
the vector index. -/
structure AppState where
  documents : List DocumentRow
  index : List VPoint
deriving DecidableEq

/-- `delete_document` (documents.py lines 207-253): look the document up by
id and project, 404 when absent, otherwise delete the file and the database
row and commit.  The route performs no vector-store call, so the index
field is passed through unchanged. -/
def delete_document (st : AppState) (projectId docId : Str) :
    Except HttpErr AppState :=
  match st.documents.find? (fun d => d.id == docId && d.project_id == projectId) with
  | Option.none => Except.error HttpErr.notFound
  | some _ =>
    Except.ok
      { documents := st.documents.filter
          (fun d => !(d.id == docId && d.project_id == projectId))
        index := st.index }

/-- The keys pydantic requires of a citation (schemas/query.py lines
10-18): `rank: int` is a required field of the `Citation` response schema. -/
def citationSchemaRequiredKeys : List Str :=
  [ str "chunk_id", str "document_id", str "document_name", str "page_number"
  , str "similarity_score", str "text", str "rank" ]

instance {ε α : Type} [DecidableEq ε] [DecidableEq α] :
    DecidableEq (Except ε α) := fun a b =>
  match a, b with
  | Except.error x, Except.error y =>
    if h : x = y then Decidable.isTrue (by rw [h])
    else Decidable.isFalse (fun hh => h (Except.error.inj hh))
  | Except.error _, Except.ok _ => Decidable.isFalse (fun hh => Except.noConfusion hh)
  | Except.ok _, Except.error _ => Decidable.isFalse (fun hh => Except.noConfusion hh)
  | Except.ok x, Except.ok y =>
    if h : x = y then Decidable.isTrue (by rw [h])
    else Decidable.isFalse (fun hh => h (Except.ok.inj hh))

/-! ## Concrete fixtures used by witnesses and counterexamples -/

/-- A chunk row present in the relational store. -/
def chunkW : ChunkRow := ⟨str "ch1", str "relevant passage text"⟩

/-- Its document row. -/
def docW : DocumentRow := ⟨str "d1", str "p1", str "report.pdf"⟩

/-- A search hit resolving to `chunkW` and `docW`, scoring 0.9. -/
def hitW : Hit := ⟨str "ch1", (9 : ℚ) / 10, str "d1", Option.none⟩

/-- A database holding project `p1` with that one chunk and document. -/
def dbW : Db := ⟨[str "p1"], [chunkW], [docW]⟩

/-- A query request against project `p1`. -/
def reqW : QueryRequest := ⟨str "p1", str "what does the report say", Option.none⟩

/-- The vector point `upsert_chunks` would store for `chunkW`. -/
def pointW : VPoint := ⟨str "ch1", str "d1", str "p1"⟩

/-- A two-project index. -/
def idxW : List VPoint := [pointW, ⟨str "ch2", str "d2", str "p2"⟩]

/-! ## Claim C1: document deletion and the vector index -/

/-- C1: deleting a document removes its database row but leaves its vectors
in the index (the route issues no vector-store call), violating the
invariant that the index holds no ids for a deleted document; the unused
`delete_by_document` service call would have removed them. -/
theorem delete_document_leaves_vectors :
    delete_document ⟨[docW], [pointW]⟩ (str "p1") (str "d1")
      = Except.ok ⟨[], [pointW]⟩ ∧
    (([pointW] : List VPoint).filter (fun p => p.document_id == str "d1")).length = 1 ∧
    delete_by_document [pointW] (str "d1") = [] := by
  decide

/-! ## Claim C2: search failure versus no results -/

/-- C2 counterexample: with project `p1` present, a raising vector search
(the `Except.error` oracle) yields a committed query with the fixed
no-results message and status `COMPLETED` — not a `FAILED` outcome. -/
theorem search_failure_counterexample :
    submitQuery dbW reqW (str "q1") (Except.error ()) (Except.ok (str "an answer"))
      = Except.ok
          { id := str "q1"
            project_id := str "p1"
            query_text := str "what does the report say"
            response_text := noResultsMsg
            model_used := str "gpt-4"
            citations := []
            status := QueryStatus.completed } ∧
    QueryStatus.completed ≠ QueryStatus.failed := by
  decide

/-- C2 (amended): a raising vector search is fully indistinguishable from a
successful search returning no hits — `VectorDatabase.search` catches the
exception and returns `[]`, and `submit_query` then returns the same
no-results record with status `COMPLETED` in both cases. -/
theorem search_failure_indistinguishable (db : Db) (req : QueryRequest)
    (qid : Str) (e : Unit) (provider : Except Str Str) :
    submitQuery db req qid (Except.error e) provider
      = submitQuery db req qid (Except.ok []) provider := rfl

/-! ## Claim C4: generation failure keeps the citations -/

/-- C4: when the search succeeds with hits and some hit resolves to a chunk
and document (so the provider is actually invoked), a provider failure
yields the degraded retrieval-succeeded-but-generation-failed answer, the
citation sequence derived from the search, identical to the one a
successful generation returns, and status `COMPLETED`. -/
theorem generation_failure_keeps_citations (db : Db) (req : QueryRequest)
    (qid : Str) (hits : List Hit) (e t : Str)
    (hproj : db.projects.contains req.project_id = true)
    (hhits : hits ≠ [])
    (hctx : (buildCC db hits.enum).1 ≠ []) :
    (submitQuery db req qid (Except.ok hits) (Except.error e)).map (fun r => r.citations)
      = (submitQuery db req qid (Except.ok hits) (Except.ok t)).map (fun r => r.citations) ∧
    (submitQuery db req qid (Except.ok hits) (Except.error e)).map (fun r => r.response_text)
      = Except.ok (degradedMsg e) ∧
    (submitQuery db req qid (Except.ok hits) (Except.error e)).map (fun r => r.citations)
      = Except.ok (buildCC db hits.enum).2 ∧
    (submitQuery db req qid (Except.ok hits) (Except.error e)).map (fun r => r.status)
      = Except.ok QueryStatus.completed := by
  have hne : hits.isEmpty = false := by
    cases hits
    · exact absurd rfl hhits
    · rfl
  have hctxe : (buildCC db hits.enum).1.isEmpty = false := by
    cases h : (buildCC db hits.enum).1
    · exact absurd h hctx
    · rfl
  have hmem : req.project_id ∈ db.projects := by simpa using hproj
  refine ⟨?_, ?_, ?_, ?_⟩ <;>
    simp [submitQuery, vdbSearch, hmem, hne, generateRagResponse, hctxe, Except.map]

/-- C4 witness: the statement instantiated at the one-hit fixture. -/
theorem generation_failure_keeps_citations_witness :
    dbW.projects.contains reqW.project_id = true ∧
    ([hitW] : List Hit) ≠ [] ∧
    (buildCC dbW ([hitW] : List Hit).enum).1 ≠ [] ∧
    ((submitQuery dbW reqW (str "q1") (Except.ok [hitW]) (Except.error (str "boom"))).map
          (fun r => r.citations)
        = (submitQuery dbW reqW (str "q1") (Except.ok [hitW]) (Except.ok (str "fine"))).map
          (fun r => r.citations) ∧
      (submitQuery dbW reqW (str "q1") (Except.ok [hitW]) (Except.error (str "boom"))).map
          (fun r => r.response_text)
        = Except.ok (degradedMsg (str "boom")) ∧
      (submitQuery dbW reqW (str "q1") (Except.ok [hitW]) (Except.error (str "boom"))).map
          (fun r => r.citations)
        = Except.ok (buildCC dbW ([hitW] : List Hit).enum).2 ∧
      (submitQuery dbW reqW (str "q1") (Except.ok [hitW]) (Except.error (str "boom"))).map
          (fun r => r.status)
        = Except.ok QueryStatus.completed) :=
  ⟨by decide, by decide, by decide,
   generation_failure_keeps_citations dbW reqW (str "q1") [hitW] (str "boom") (str "fine")
     (by decide) (by decide) (by decide)⟩

/-! ## Claim C5: embedding dimension mismatch at connect -/

/-- C5 counterexample: configured dimension 384, discovered dimension 768 —
`connect` reports success and adopts 768; it does not fail. -/
theorem dimension_mismatch_counterexample :
    connect 384 (Except.ok 768) = (true, 768) ∧
    (connect 384 (Except.ok 768)).1 ≠ false ∧
    (768 : Nat) ≠ 384 := by
  decide

/-- C5 (amended): whenever the embedding model loads, `connect` returns
success and ends with `embedding_dimension` equal to the model's actual
dimension — on a mismatch it logs a warning and adopts the new dimension
instead of failing. -/
theorem connect_adopts_actual_dimension (c a : Nat) :
    connect c (Except.ok a) = (true, a) := by
  unfold connect
  split <;> simp_all

/-! ## Claim C6: create_collection and dimensions -/

/-- C6 counterexample: an existing collection named `docs` with dimension
384; `create_collection` for the same name with dimension 768 reports
success and leaves the old collection (dimension 384) in place — there is
no `DimensionMismatch` failure. -/
theorem create_collection_counterexample :
    create_collection [⟨str "docs", 384⟩] (str "docs") 768 false
      = (true, [⟨str "docs", 384⟩]) ∧
    (384 : Nat) ≠ 768 := by
  decide

/-- C6 (amended): `create_collection` is idempotent on the collection name
alone: whenever a collection with the requested name exists, it returns
success and leaves the collection list — dimensions included — untouched,
whatever dimension was requested. -/
theorem create_collection_name_idempotent (cols : List Collection) (nm : Str)
    (dim : Nat) (h : (cols.map (fun c => c.name)).contains nm = true) :
    create_collection cols nm dim false = (true, cols) := by
  unfold create_collection
  simp [h]
  simpa using h

/-- C6 witness: the amended statement at the dimension-changing call. -/
theorem create_collection_name_idempotent_witness :
    (([⟨str "docs", 384⟩] : List Collection).map (fun c => c.name)).contains (str "docs")
      = true ∧
    create_collection [⟨str "docs", 384⟩] (str "docs") 768 false
      = (true, [⟨str "docs", 384⟩]) :=
  ⟨by decide, create_collection_name_idempotent [⟨str "docs", 384⟩] (str "docs") 768 (by decide)⟩

/-! ## Claim C9: citation rank field -/

/-- C9: a one-hit query yields exactly one citation, but the citation
dictionary the route builds has no `rank` key at all, although the
route's own response schema (`Citation` in schemas/query.py) declares
`rank: int` as a required field. -/
theorem citation_missing_rank :
    (submitQuery dbW reqW (str "q1") (Except.ok [hitW]) (Except.ok (str "ans"))).map
        (fun r => r.citations)
      = Except.ok [citationDict chunkW docW hitW] ∧
    (citationDict chunkW docW hitW).lookup (str "rank") = Option.none ∧
    citationSchemaRequiredKeys.contains (str "rank") = true ∧
    (citationDict chunkW docW hitW).map (fun kv => kv.1) ≠ citationSchemaRequiredKeys :=
  ⟨rfl, by decide, by decide, by decide⟩

/-! ## Claim C10: truthiness of the scope filter -/

/-- C10: the search attaches the project condition only for a truthy id:
for `None` and for the empty string the filter matches every point, so the
whole index is in scope; for a non-empty id exactly the points whose
payload `project_id` equals it are in scope. -/
theorem scope_filter_truthiness (index : List VPoint) (pid : Str) (hpid : pid ≠ []) :
    searchScope index Option.none Option.none = index ∧
    searchScope index (some []) Option.none = index ∧
    searchScope index (some pid) Option.none
      = index.filter (fun p => p.project_id == pid) := by
  refine ⟨?_, ?_, ?_⟩
  · rw [searchScope, List.filter_eq_self]
    intro a _
    rfl
  · rw [searchScope, List.filter_eq_self]
    intro a _
    rfl
  · rw [searchScope]
    apply List.filter_congr
    intro a _
    simp [buildConditions, matchesConditions, payloadGet, pyTruthyStr, List.isEmpty_iff, hpid]

/-- C10 witness: the statement at a two-project index and id `p1`. -/
theorem scope_filter_truthiness_witness :
    str "p1" ≠ [] ∧
    (searchScope idxW Option.none Option.none = idxW ∧
     searchScope idxW (some []) Option.none = idxW ∧
     searchScope idxW (some (str "p1")) Option.none
       = idxW.filter (fun p => p.project_id == str "p1")) :=
  ⟨by decide, scope_filter_truthiness idxW (str "p1") (by decide)⟩

end RAG
